import Mathlib

/-!
Verification of the WebSocket frame protocol engine in `src/server.mjs`:
handshake-key derivation, incoming-frame decoding (length/mask extraction,
unmasking, JSON parse) and outgoing-frame encoding.

Bytes are modelled as `Nat` values; JS `Buffer` writes truncate to a byte,
which we model with an explicit `% 256`.  Fallible operations return
`Except WsError _`.
-/

/-! ## Constants (src/server.mjs lines 6-13) -/

def WEBSOCKET_MAGIC_STRING : String := "258EAFA5-E914-47DA-95CA-C5AB0DC85B11"

def SEVEN_BITS_INTEGER_MARKER : Nat := 125

def MASK_KEY_BYTES_LENGTH : Nat := 4

def OPCODE_TEXT : Nat := 0x01

def FIRST_BIT : Nat := 128

/-- Error taxonomy of the engine: length indicators 126/127 are unsupported
(`MessageTooLong`), payloads that are not UTF-8 JSON fail
(`MalformedPayload`), and a read past the end of the modelled byte stream is
`InsufficientData`. -/
inductive WsError where
  | MessageTooLong
  | MalformedPayload
  | InsufficientData
  deriving DecidableEq, Repr

/-! ## UTF-8 encoding (model of JS `Buffer.from(string)`) -/

/-- Standard UTF-8 encoding of a single code point, as `Buffer.from` performs
on each character of a JS string. -/
def utf8EncodeCp (c : Nat) : List Nat :=
  if c < 0x80 then [c]
  else if c < 0x800 then [0xC0 + c / 64, 0x80 + c % 64]
  else if c < 0x10000 then [0xE0 + c / 4096, 0x80 + (c / 64) % 64, 0x80 + c % 64]
  else [0xF0 + c / 262144, 0x80 + (c / 4096) % 64, 0x80 + (c / 64) % 64, 0x80 + c % 64]

/-- UTF-8 byte sequence of a string: model of `Buffer.from(message)`. -/
def utf8Encode (s : String) : List Nat :=
  s.data.foldr (fun c acc => utf8EncodeCp c.toNat ++ acc) []

/-! ## unmask (src/server.mjs lines 122-185)

The JS source copies the encoded buffer (`Buffer.from(encodedBuffer)`) and
then runs a for-loop writing `finalBuffer[i] = encodedBuffer[i] ^
maskKey[i % 4]`.  We model the loop imperatively: the state is the pair
(encodedBuffer, finalBuffer) and each iteration performs one indexed write
into the final buffer, so that non-mutation of the encoded buffer is a
provable property rather than an assumption. -/

/-- One iteration of the unmask loop: write index `i` of the final buffer.
A `Buffer` write truncates to a byte, hence the `% 256`. -/
def unmaskStep (maskKey : List Nat) (st : List Nat × List Nat) (i : Nat) :
    List Nat × List Nat :=
  (st.1, st.2.set i ((st.1.getD i 0 ^^^ maskKey.getD (i % MASK_KEY_BYTES_LENGTH) 0) % 256))

/-- The whole unmask computation: `finalBuffer` starts as a copy of
`encodedBuffer`, then the loop runs for `i = 0, ..., length - 1`.  Returns
the final (encodedBuffer, finalBuffer) pair. -/
def unmaskRun (encodedBuffer maskKey : List Nat) : List Nat × List Nat :=
  (List.range encodedBuffer.length).foldl (unmaskStep maskKey) (encodedBuffer, encodedBuffer)

/-- `unmask` returns the final buffer. -/
def unmask (encodedBuffer maskKey : List Nat) : List Nat :=
  (unmaskRun encodedBuffer maskKey).2

/-! ### Helper lemmas about the unmask loop -/

theorem unmaskStep_fst (maskKey : List Nat) (st : List Nat × List Nat) (i : Nat) :
    (unmaskStep maskKey st i).1 = st.1 := rfl

theorem foldl_unmaskStep_fst (maskKey : List Nat) (l : List Nat)
    (st : List Nat × List Nat) :
    (l.foldl (unmaskStep maskKey) st).1 = st.1 := by
  induction l generalizing st with
  | nil => rfl
  | cons x xs ih => simpa [List.foldl_cons] using ih (unmaskStep maskKey st x)

/-- The loop never touches the encoded buffer. -/
theorem unmaskRun_fst (encodedBuffer maskKey : List Nat) :
    (unmaskRun encodedBuffer maskKey).1 = encodedBuffer :=
  foldl_unmaskStep_fst ..

/-- Because the first component is invariant, the fold is a fold on the final
buffer alone. -/
def unmaskWrite (encodedBuffer maskKey : List Nat) (fin : List Nat) (i : Nat) :
    List Nat :=
  fin.set i ((encodedBuffer.getD i 0 ^^^ maskKey.getD (i % MASK_KEY_BYTES_LENGTH) 0) % 256)

theorem foldl_unmaskStep_snd (maskKey enc : List Nat) (l : List Nat) (fin : List Nat) :
    (l.foldl (unmaskStep maskKey) (enc, fin)).2 =
      l.foldl (unmaskWrite enc maskKey) fin := by
  induction l generalizing fin with
  | nil => rfl
  | cons x xs ih => exact ih (unmaskWrite enc maskKey fin x)

theorem getD_set (l : List Nat) (i j v : Nat) :
    (l.set i v).getD j 0 =
      if i = j ∧ j < l.length then v else l.getD j 0 := by
  induction l generalizing i j with
  | nil => simp [List.set]
  | cons x xs ih =>
    cases i with
    | zero =>
      cases j with
      | zero => simp
      | succ j => simp [List.set]
    | succ i =>
      cases j with
      | zero => simp [List.set]
      | succ j =>
        simp only [List.set, List.getD_cons_succ, List.length_cons]
        rw [ih]
        by_cases h : i = j ∧ j < xs.length
        · rw [if_pos h, if_pos ⟨by omega, by omega⟩]
        · rw [if_neg h, if_neg (by omega)]

theorem length_foldl_unmaskWrite (enc maskKey : List Nat) (l : List Nat)
    (fin : List Nat) :
    (l.foldl (unmaskWrite enc maskKey) fin).length = fin.length := by
  induction l generalizing fin with
  | nil => rfl
  | cons x xs ih =>
    rw [List.foldl_cons, ih (unmaskWrite enc maskKey fin x)]
    simp [unmaskWrite]

theorem foldl_unmaskWrite_getD (enc maskKey : List Nat) (n i j : Nat)
    (fin : List Nat) (hj : j < fin.length) :
    ((List.range' i n).foldl (unmaskWrite enc maskKey) fin).getD j 0 =
      if i ≤ j ∧ j < i + n then
        (enc.getD j 0 ^^^ maskKey.getD (j % MASK_KEY_BYTES_LENGTH) 0) % 256
      else fin.getD j 0 := by
  induction n generalizing i fin with
  | zero =>
    rw [List.range'_zero, List.foldl_nil, if_neg (by omega)]
  | succ n ih =>
    rw [List.range'_succ, List.foldl_cons]
    rw [ih (i + 1) (unmaskWrite enc maskKey fin i)
      (by simpa [unmaskWrite] using hj)]
    by_cases hmid : i + 1 ≤ j ∧ j < i + 1 + n
    · rw [if_pos hmid, if_pos ⟨by omega, by omega⟩]
    · rw [if_neg hmid]
      simp only [unmaskWrite, getD_set]
      by_cases hij : i = j
      · subst hij
        rw [if_pos ⟨rfl, hj⟩, if_pos ⟨le_refl i, by omega⟩]
      · rw [if_neg (by omega), if_neg (by omega)]

theorem unmask_length (enc maskKey : List Nat) :
    (unmask enc maskKey).length = enc.length := by
  unfold unmask unmaskRun
  rw [foldl_unmaskStep_snd, length_foldl_unmaskWrite]

theorem unmask_getD (enc maskKey : List Nat) (i : Nat) (hi : i < enc.length) :
    (unmask enc maskKey).getD i 0 =
      (enc.getD i 0 ^^^ maskKey.getD (i % MASK_KEY_BYTES_LENGTH) 0) % 256 := by
  unfold unmask unmaskRun
  rw [foldl_unmaskStep_snd, List.range_eq_range',
    foldl_unmaskWrite_getD enc maskKey enc.length 0 i enc hi,
    if_pos ⟨Nat.zero_le i, by omega⟩]

theorem getD_eq_getElem (l : List Nat) (i : Nat) (h : i < l.length) :
    l.getD i 0 = l[i] := by
  simp [List.getD_eq_getElem?_getD, List.getElem?_eq_getElem h]

/-- Pointwise description without the byte truncation, valid for byte-valued
inputs: each decoded byte is the XOR of the encoded byte with the mask key
byte at index `i mod 4`. -/
theorem unmask_getD_of_bytes (enc maskKey : List Nat)
    (henc : ∀ b ∈ enc, b < 256) (hkey : ∀ b ∈ maskKey, b < 256)
    (i : Nat) (hi : i < enc.length) :
    (unmask enc maskKey).getD i 0 = enc.getD i 0 ^^^ maskKey.getD (i % 4) 0 := by
  rw [unmask_getD enc maskKey i hi]
  have h1 : enc.getD i 0 < 256 := by
    rw [getD_eq_getElem enc i hi]; exact henc _ (List.getElem_mem hi)
  have h2 : maskKey.getD (i % 4) 0 < 256 := by
    by_cases h : i % 4 < maskKey.length
    · rw [getD_eq_getElem maskKey _ h]; exact hkey _ (List.getElem_mem h)
    · rw [List.getD_eq_default]; · omega
      omega
  have hx : enc.getD i 0 ^^^ maskKey.getD (i % 4) 0 < 256 := by
    have := Nat.xor_lt_two_pow (n := 8) (by simpa using h1) (by simpa using h2)
    simpa using this
  show (enc.getD i 0 ^^^ maskKey.getD (i % 4) 0) % 256 = _
  exact Nat.mod_eq_of_lt hx

theorem unmask_bytes_lt (enc maskKey : List Nat) (i : Nat) (hi : i < enc.length) :
    (unmask enc maskKey).getD i 0 < 256 := by
  rw [unmask_getD enc maskKey i hi]
  exact Nat.mod_lt _ (by omega)

/-- XOR with the same key twice gives back the original list. -/
theorem unmask_unmask (enc maskKey : List Nat)
    (henc : ∀ b ∈ enc, b < 256) (hkey : ∀ b ∈ maskKey, b < 256) :
    unmask (unmask enc maskKey) maskKey = enc := by
  have hlen : (unmask (unmask enc maskKey) maskKey).length = enc.length := by
    rw [unmask_length, unmask_length]
  apply List.ext_getElem hlen
  intro i h1 h2
  have hi : i < enc.length := h2
  have hi' : i < (unmask enc maskKey).length := by rw [unmask_length]; exact hi
  rw [← getD_eq_getElem _ i h1, ← getD_eq_getElem _ i h2]
  rw [unmask_getD_of_bytes (unmask enc maskKey) maskKey ?hb hkey i hi']
  case hb =>
    intro b hb
    obtain ⟨j, hj, rfl⟩ := List.getElem_of_mem hb
    rw [← getD_eq_getElem _ j hj]
    exact unmask_bytes_lt enc maskKey j (by rw [unmask_length] at hj; exact hj)
  rw [unmask_getD_of_bytes enc maskKey henc hkey i hi]
  rw [Nat.xor_assoc, Nat.xor_self, Nat.xor_zero]

/-! ## Frame encoder: prepareMessage (src/server.mjs lines 47-67) -/

/-- Model of the local helper `concat(bufferList, totalLength)`
(src/server.mjs lines 69-78): writes the buffers one after the other into a
fresh target, i.e. list concatenation. -/
def concatBufs (bufferList : List (List Nat)) : List Nat :=
  bufferList.foldl (fun target buffer => target ++ buffer) []

/-- Model of `prepareMessage(message)`: UTF-8 encode, emit the two header
bytes `[0x80 | OPCODE_TEXT, messageSize]` when the payload fits in 7 bits,
otherwise fail. -/
def prepareMessage (message : String) : Except WsError (List Nat) :=
  let msg := utf8Encode message
  let messageSize := msg.length
  let firstByte := 0x80 ||| OPCODE_TEXT
  if messageSize ≤ SEVEN_BITS_INTEGER_MARKER then
    .ok (concatBufs [[firstByte, messageSize], msg])
  else
    .error .MessageTooLong

/-! ## UTF-8 decoding (model of `Buffer.prototype.toString` with utf8)

Strict decoding: a byte sequence that is not well-formed UTF-8 (stray
continuation byte, truncated sequence, overlong form, surrogate code point,
out-of-range code point) yields `none`, which downstream surfaces as
`MalformedPayload`.  Fuel-based recursion; the fuel is always taken as
`length + 1`, which is enough since every step consumes at least one byte. -/

def utf8DecodeF : Nat → List Nat → Option (List Nat)
  | 0, _ => none
  | _ + 1, [] => some []
  | fuel + 1, b :: rest =>
    if b < 0x80 then
      (utf8DecodeF fuel rest).map (fun cps => b :: cps)
    else if b < 0xC2 then none
    else if b < 0xE0 then
      match rest with
      | c1 :: rest1 =>
        if 0x80 ≤ c1 ∧ c1 < 0xC0 then
          (utf8DecodeF fuel rest1).map
            (fun cps => ((b - 0xC0) * 64 + (c1 - 0x80)) :: cps)
        else none
      | _ => none
    else if b < 0xF0 then
      match rest with
      | c1 :: c2 :: rest2 =>
        if (0x80 ≤ c1 ∧ c1 < 0xC0) ∧ (0x80 ≤ c2 ∧ c2 < 0xC0) then
          let cp := (b - 0xE0) * 4096 + (c1 - 0x80) * 64 + (c2 - 0x80)
          if cp < 0x800 ∨ (0xD800 ≤ cp ∧ cp < 0xE000) then none
          else (utf8DecodeF fuel rest2).map (fun cps => cp :: cps)
        else none
      | _ => none
    else if b < 0xF5 then
      match rest with
      | c1 :: c2 :: c3 :: rest3 =>
        if (0x80 ≤ c1 ∧ c1 < 0xC0) ∧ (0x80 ≤ c2 ∧ c2 < 0xC0) ∧
            (0x80 ≤ c3 ∧ c3 < 0xC0) then
          let cp := (b - 0xF0) * 262144 + (c1 - 0x80) * 4096 +
            (c2 - 0x80) * 64 + (c3 - 0x80)
          if cp < 0x10000 ∨ 0x110000 ≤ cp then none
          else (utf8DecodeF fuel rest3).map (fun cps => cp :: cps)
        else none
      | _ => none
    else none

def utf8Decode (bytes : List Nat) : Option (List Nat) :=
  utf8DecodeF (bytes.length + 1) bytes

/-! ## JSON values and parser (model of JS `JSON.parse`)

`JSON.parse` is a platform builtin, not code of this repository.  Modelled
from the spec: the decoder interprets the unmasked bytes as UTF-8 text and
parses them as a JSON document, failing (`MalformedPayload`) on any text
that is not valid JSON.  The parser below implements the JSON grammar
(RFC 8259) over code points: literals, numbers (integer part with the
no-leading-zero rule, optional fraction and exponent), strings with escape
sequences, arrays and objects.  Numbers are kept exactly as
`mantissa * 10 ^ exponent`. -/

inductive Json where
  | null
  | bool (b : Bool)
  | num (mantissa : Int) (exponent : Int)
  | str (cps : List Nat)
  | arr (elems : List Json)
  | obj (fields : List (List Nat × Json))
  deriving Repr

def skipWs : List Nat → List Nat
  | [] => []
  | c :: rest =>
    if c = 32 ∨ c = 9 ∨ c = 10 ∨ c = 13 then skipWs rest else c :: rest

def takeDigits : List Nat → List Nat × List Nat
  | [] => ([], [])
  | c :: rest =>
    if 48 ≤ c ∧ c ≤ 57 then
      let p := takeDigits rest
      (c :: p.1, p.2)
    else ([], c :: rest)

def digitsVal (ds : List Nat) : Nat :=
  ds.foldl (fun a d => a * 10 + (d - 48)) 0

/-- Fraction part: a dot must be followed by at least one digit. -/
def parseFrac : List Nat → Option (List Nat × List Nat)
  | 46 :: rest =>
    match takeDigits rest with
    | ([], _) => none
    | (ds, r) => some (ds, r)
  | s => some ([], s)

/-- Exponent part (`e`/`E`, optional sign, at least one digit); returns the
signed exponent value, zero when absent. -/
def parseExpPart : List Nat → Option (Int × List Nat)
  | [] => some (0, [])
  | c :: rest =>
    if c = 101 ∨ c = 69 then
      let p : Int × List Nat :=
        match rest with
        | 43 :: r => (1, r)
        | 45 :: r => (-1, r)
        | _ => (1, rest)
      match takeDigits p.2 with
      | ([], _) => none
      | (ds, r2) => some (p.1 * Int.ofNat (digitsVal ds), r2)
    else some (0, c :: rest)

def parseNumberCps (s : List Nat) : Option (Json × List Nat) :=
  let p : Bool × List Nat :=
    match s with
    | 45 :: rest => (true, rest)
    | _ => (false, s)
  match takeDigits p.2 with
  | ([], _) => none
  | (ds, s2) =>
    if 1 < ds.length ∧ ds.headD 0 = 48 then none
    else
      match parseFrac s2 with
      | none => none
      | some (fds, s3) =>
        match parseExpPart s3 with
        | none => none
        | some (e, s4) =>
          let m : Nat := digitsVal (ds ++ fds)
          let mi : Int := if p.1 then -(Int.ofNat m) else Int.ofNat m
          some (Json.num mi (e - Int.ofNat fds.length), s4)

def hexVal (c : Nat) : Option Nat :=
  if 48 ≤ c ∧ c ≤ 57 then some (c - 48)
  else if 65 ≤ c ∧ c ≤ 70 then some (c - 55)
  else if 97 ≤ c ∧ c ≤ 102 then some (c - 87)
  else none

/-- String body after the opening quote: plain code points, the short escape
sequences and the 4-hex-digit escape; control characters are rejected. -/
def parseStringRest : Nat → List Nat → Option (List Nat × List Nat)
  | 0, _ => none
  | _ + 1, [] => none
  | fuel + 1, c :: rest =>
    if c = 34 then some ([], rest)
    else if c = 92 then
      match rest with
      | [] => none
      | e :: rest2 =>
        if e = 34 ∨ e = 92 ∨ e = 47 then
          (parseStringRest fuel rest2).map (fun p => (e :: p.1, p.2))
        else if e = 98 then
          (parseStringRest fuel rest2).map (fun p => (8 :: p.1, p.2))
        else if e = 102 then
          (parseStringRest fuel rest2).map (fun p => (12 :: p.1, p.2))
        else if e = 110 then
          (parseStringRest fuel rest2).map (fun p => (10 :: p.1, p.2))
        else if e = 114 then
          (parseStringRest fuel rest2).map (fun p => (13 :: p.1, p.2))
        else if e = 116 then
          (parseStringRest fuel rest2).map (fun p => (9 :: p.1, p.2))
        else if e = 117 then
          match rest2 with
          | h1 :: h2 :: h3 :: h4 :: rest3 =>
            match hexVal h1, hexVal h2, hexVal h3, hexVal h4 with
            | some a, some b, some c2, some d =>
              (parseStringRest fuel rest3).map
                (fun p => ((a * 4096 + b * 256 + c2 * 16 + d) :: p.1, p.2))
            | _, _, _, _ => none
          | _ => none
        else none
    else if c < 32 then none
    else (parseStringRest fuel rest).map (fun p => (c :: p.1, p.2))

mutual

def parseValueCps : Nat → List Nat → Option (Json × List Nat)
  | 0, _ => none
  | fuel + 1, s =>
    match skipWs s with
    | [] => none
    | c :: rest =>
      if c = 110 then
        match rest with
        | 117 :: 108 :: 108 :: r => some (Json.null, r)
        | _ => none
      else if c = 116 then
        match rest with
        | 114 :: 117 :: 101 :: r => some (Json.bool true, r)
        | _ => none
      else if c = 102 then
        match rest with
        | 97 :: 108 :: 115 :: 101 :: r => some (Json.bool false, r)
        | _ => none
      else if c = 34 then
        (parseStringRest (rest.length + 1) rest).map
          (fun p => (Json.str p.1, p.2))
      else if c = 91 then
        match skipWs rest with
        | 93 :: r => some (Json.arr [], r)
        | r2 => (parseArrayItems fuel r2).map (fun p => (Json.arr p.1, p.2))
      else if c = 123 then
        match skipWs rest with
        | 125 :: r => some (Json.obj [], r)
        | r2 => (parseObjMembers fuel r2).map (fun p => (Json.obj p.1, p.2))
      else if c = 45 ∨ (48 ≤ c ∧ c ≤ 57) then
        parseNumberCps (c :: rest)
      else none

def parseArrayItems : Nat → List Nat → Option (List Json × List Nat)
  | 0, _ => none
  | fuel + 1, s =>
    match parseValueCps fuel s with
    | none => none
    | some (v, r) =>
      match skipWs r with
      | 44 :: r2 => (parseArrayItems fuel r2).map (fun p => (v :: p.1, p.2))
      | 93 :: r2 => some ([v], r2)
      | _ => none

def parseObjMembers : Nat → List Nat → Option (List (List Nat × Json) × List Nat)
  | 0, _ => none
  | fuel + 1, s =>
    match skipWs s with
    | 34 :: rest =>
      match parseStringRest (rest.length + 1) rest with
      | none => none
      | some (key, r1) =>
        match skipWs r1 with
        | 58 :: r2 =>
          match parseValueCps fuel r2 with
          | none => none
          | some (v, r3) =>
            match skipWs r3 with
            | 44 :: r4 =>
              (parseObjMembers fuel r4).map (fun p => ((key, v) :: p.1, p.2))
            | 125 :: r4 => some ([(key, v)], r4)
            | _ => none
        | _ => none
    | _ => none

end

/-- Parse a complete JSON document from code points: one value, possibly
surrounded by whitespace, with nothing after it. -/
def jsonParse (cps : List Nat) : Option Json :=
  match parseValueCps (cps.length + 1) cps with
  | some (j, rest) => if skipWs rest = [] then some j else none
  | none => none

/-- Decoded-payload interpretation used by the frame decoder: UTF-8 decode
then JSON parse; any failure is `MalformedPayload` downstream. -/
def jsonParseBytes (bytes : List Nat) : Option Json :=
  match utf8Decode bytes with
  | some cps => jsonParse cps
  | none => none

/-! ## Frame decoder: onSocketReadable (src/server.mjs lines 86-120)

The reader is the spec's blocking read-exactly-N-bytes primitive over the
connection's byte stream, modelled as a list of bytes: a read either
returns the first N bytes and the remainder, or fails
(`InsufficientData`) when the stream is shorter than N. -/

def readBytes (n : Nat) (s : List Nat) : Option (List Nat × List Nat) :=
  if n ≤ s.length then some (s.take n, s.drop n) else none

/-- Decoding part of `onSocketReadable`: consume the opcode byte without
inspecting it, take the second byte, subtract `FIRST_BIT` (JS numbers are
signed, hence the `Int`), accept the value as the payload length iff it is
at most `SEVEN_BITS_INTEGER_MARKER`, then read the 4-byte mask key and the
payload, unmask, and interpret the bytes as UTF-8 JSON. -/
def decodeFrame (stream : List Nat) : Except WsError Json :=
  match readBytes 1 stream with
  | none => .error .InsufficientData
  | some (_, s1) =>
    match readBytes 1 s1 with
    | none => .error .InsufficientData
    | some (mb, s2) =>
      let markerAndPayloadLength := mb.headD 0
      let lengthIndicatorInBits : Int :=
        (markerAndPayloadLength : Int) - (FIRST_BIT : Int)
      if lengthIndicatorInBits ≤ (SEVEN_BITS_INTEGER_MARKER : Int) then
        let messageLength := lengthIndicatorInBits.toNat
        match readBytes MASK_KEY_BYTES_LENGTH s2 with
        | none => .error .InsufficientData
        | some (maskKey, s3) =>
          match readBytes messageLength s3 with
          | none => .error .InsufficientData
          | some (encoded, _) =>
            match jsonParseBytes (unmask encoded maskKey) with
            | some data => .ok data
            | none => .error .MalformedPayload
      else .error .MessageTooLong

/-! ## Connection handler reply path (src/server.mjs lines 109-120)

After a successful decode the source builds the reply string

  JSON.stringify({ message: data, at: new Date.toISOString() })

and sends it through `prepareMessage`.  JS evaluates the object literal
first, and `Date.toISOString` is `undefined` (the method lives on
`Date.prototype`, not on the `Date` constructor), so `new
Date.toISOString()` throws a TypeError before any reply is built. -/

inductive JsError where
  | notAConstructor
  deriving DecidableEq, Repr

/-- Model of the JS expression `new Date.toISOString()` at src/server.mjs
line 116: `Date.toISOString` is `undefined`, and `new` applied to
`undefined` throws `TypeError: Date.toISOString is not a constructor`. -/
def newDateToISOString : Except JsError String := .error .notAConstructor

inductive HandlerError where
  | decodeError (e : WsError)
  | jsError (e : JsError)
  | encodeError (e : WsError)
  deriving DecidableEq, Repr

def hexDigitCp (n : Nat) : Nat := if n < 10 then n + 48 else n + 87

def escapeCp (c : Nat) : List Nat :=
  if c = 34 then [92, 34]
  else if c = 92 then [92, 92]
  else if c < 32 then [92, 117, 48, 48, hexDigitCp (c / 16), hexDigitCp (c % 16)]
  else [c]

def natDigitsAux : Nat → Nat → List Nat → List Nat
  | 0, _, acc => acc
  | fuel + 1, n, acc =>
    if n = 0 then acc else natDigitsAux fuel (n / 10) ((n % 10 + 48) :: acc)

def natDigitsCps (n : Nat) : List Nat :=
  if n = 0 then [48] else natDigitsAux (n + 1) n []

def intDigitsCps (i : Int) : List Nat :=
  if i < 0 then 45 :: natDigitsCps i.natAbs else natDigitsCps i.natAbs

def serializeStrCps (s : List Nat) : List Nat :=
  34 :: s.foldr (fun c acc => escapeCp c ++ acc) [34]

/-- Modelled from the spec: `JSON.stringify` is a platform builtin not
present in the repository; the spec only requires the reply payload to be
JSON text.  Serializer over `Json` values (fuel bounds the nesting
depth). -/
def serializeJson : Nat → Json → List Nat
  | 0, _ => []
  | fuel + 1, j =>
    match j with
    | .null => [110, 117, 108, 108]
    | .bool true => [116, 114, 117, 101]
    | .bool false => [102, 97, 108, 115, 101]
    | .num m e =>
      intDigitsCps m ++ (if e = 0 then [] else 101 :: intDigitsCps e)
    | .str s => serializeStrCps s
    | .arr xs =>
      91 :: List.intercalate [44] (xs.map (serializeJson fuel)) ++ [93]
    | .obj kvs =>
      123 :: List.intercalate [44]
        (kvs.map (fun kv => serializeStrCps kv.1 ++ 58 :: serializeJson fuel kv.2))
        ++ [125]

def cpsToString (l : List Nat) : String := String.mk (l.map Char.ofNat)

def stringToCps (s : String) : List Nat := s.data.map Char.toNat

/-- Model of the Open-state step of `onSocketReadable`: decode the incoming
frame; on success build the reply string (which in the source always throws
the TypeError modelled by `newDateToISOString`) and send it through
`prepareMessage`.  Returns the bytes written back to the socket. -/
def onSocketReadable (stream : List Nat) : Except HandlerError (List Nat) :=
  match decodeFrame stream with
  | .error e => .error (.decodeError e)
  | .ok data =>
    match newDateToISOString with
    | .error e => .error (.jsError e)
    | .ok ts =>
      let reply := Json.obj
        [([109, 101, 115, 115, 97, 103, 101], data),
         ([97, 116], Json.str (stringToCps ts))]
      match prepareMessage (cpsToString (serializeJson 1000 reply)) with
      | .ok bytes => .ok bytes
      | .error e => .error (.encodeError e)

/-! ## SHA-1 and base64 (createSocketAccept, src/server.mjs lines 217-221)

Modelled from the spec: `crypto.createHash('sha1')` and `digest('base64')`
are platform builtins not present in the repository; the spec prescribes
SHA-1 over the UTF-8 bytes of the concatenation, base64-encoding the
20-byte digest.  Below is the standard SHA-1 (FIPS 180) over byte lists,
with 32-bit words as `Nat` reduced `% 2^32`. -/

def w32 (x : Nat) : Nat := x % 4294967296

def rotl (n x : Nat) : Nat := ((x <<< n) ||| (x >>> (32 - n))) % 4294967296

def sha1F (t b c d : Nat) : Nat :=
  if t < 20 then (b &&& c) ||| ((b ^^^ 4294967295) &&& d)
  else if t < 40 then b ^^^ c ^^^ d
  else if t < 60 then (b &&& c) ||| (b &&& d) ||| (c &&& d)
  else b ^^^ c ^^^ d

def sha1K (t : Nat) : Nat :=
  if t < 20 then 0x5A827999
  else if t < 40 then 0x6ED9EBA1
  else if t < 60 then 0x8F1BBCDC
  else 0xCA62C1D6

/-- Big-endian byte expansion: `beBytes n v` is the `n` low-order bytes of
`v`, most significant first. -/
def beBytes : Nat → Nat → List Nat
  | 0, _ => []
  | n + 1, v => beBytes n (v / 256) ++ [v % 256]

def sha1Pad (msg : List Nat) : List Nat :=
  let len := msg.length
  let zeros := (120 - (len + 1) % 64) % 64
  msg ++ [128] ++ List.replicate zeros 0 ++ beBytes 8 (len * 8)

def bytesToWords : List Nat → List Nat
  | a :: b :: c :: d :: rest =>
    (a * 16777216 + b * 65536 + c * 256 + d) :: bytesToWords rest
  | _ => []

def chunksOf16 : Nat → List Nat → List (List Nat)
  | 0, _ => []
  | _ + 1, [] => []
  | fuel + 1, ws => ws.take 16 :: chunksOf16 fuel (ws.drop 16)

/-- Message-schedule extension, keeping the words most-recent-first so that
`w[i-3]`, `w[i-8]`, `w[i-14]`, `w[i-16]` are at indices 2, 7, 13, 15. -/
def sha1Extend : Nat → List Nat → List Nat
  | 0, acc => acc
  | n + 1, acc =>
    let v := rotl 1 (acc.getD 2 0 ^^^ acc.getD 7 0 ^^^ acc.getD 13 0 ^^^ acc.getD 15 0)
    sha1Extend n (v :: acc)

def sha1Schedule (block : List Nat) : List Nat :=
  (sha1Extend 64 block.reverse).reverse

def sha1Round (t wt : Nat) (st : Nat × Nat × Nat × Nat × Nat) :
    Nat × Nat × Nat × Nat × Nat :=
  (w32 (rotl 5 st.1 + sha1F t st.2.1 st.2.2.1 st.2.2.2.1 + st.2.2.2.2 + sha1K t + wt),
   st.1, rotl 30 st.2.1, st.2.2.1, st.2.2.2.1)

def sha1Compress (h : Nat × Nat × Nat × Nat × Nat) (block : List Nat) :
    Nat × Nat × Nat × Nat × Nat :=
  let ws := sha1Schedule block
  let st := (List.range 80).foldl (fun st t => sha1Round t (ws.getD t 0) st) h
  (w32 (h.1 + st.1), w32 (h.2.1 + st.2.1), w32 (h.2.2.1 + st.2.2.1),
   w32 (h.2.2.2.1 + st.2.2.2.1), w32 (h.2.2.2.2 + st.2.2.2.2))

def sha1 (msg : List Nat) : List Nat :=
  let ws := bytesToWords (sha1Pad msg)
  let h := (chunksOf16 (ws.length + 1) ws).foldl sha1Compress
    (0x67452301, 0xEFCDAB89, 0x98BADCFE, 0x10325476, 0xC3D2E1F0)
  beBytes 4 h.1 ++ beBytes 4 h.2.1 ++ beBytes 4 h.2.2.1 ++
    beBytes 4 h.2.2.2.1 ++ beBytes 4 h.2.2.2.2

def b64Chars : List Char :=
  "ABCDEFGHIJKLMNOPQRSTUVWXYZabcdefghijklmnopqrstuvwxyz0123456789+/".data

def b64Char (n : Nat) : Char := b64Chars.getD n '='

def base64Encode : List Nat → String
  | a :: b :: c :: rest =>
    String.mk [b64Char (a / 4), b64Char ((a % 4) * 16 + b / 16),
      b64Char ((b % 16) * 4 + c / 64), b64Char (c % 64)] ++ base64Encode rest
  | [a, b] =>
    String.mk [b64Char (a / 4), b64Char ((a % 4) * 16 + b / 16),
      b64Char ((b % 16) * 4), '=']
  | [a] => String.mk [b64Char (a / 4), b64Char ((a % 4) * 16), '=', '=']
  | [] => ""

/-! ## Handshake (src/server.mjs lines 193-221) -/

/-- Model of `createSocketAccept(id)`: SHA-1 of the UTF-8 bytes of the
nonce concatenated with the protocol GUID, base64-encoded. -/
def createSocketAccept (id : String) : String :=
  base64Encode (sha1 (utf8Encode (id ++ WEBSOCKET_MAGIC_STRING)))

/-- The five header lines of the 101 response (src/server.mjs lines
198-204). -/
def handshakeLines (acceptKey : String) : List String :=
  ["HTTP/1.1 101 Switching Protocols",
   "Upgrade: websocket",
   "Connection: Upgrade",
   "Sec-WebSocket-Accept: " ++ acceptKey,
   ""]

def joinAll (lines : List String) : String :=
  lines.foldl (fun a b => a ++ b) ""

/-- Model of `prepareHandshakeHeaders(id)`: suffix every line with CRLF and
join. -/
def prepareHandshakeHeaders (id : String) : String :=
  joinAll ((handshakeLines (createSocketAccept id)).map (fun line => line ++ "\r\n"))

/-! ## Helper lemmas for the decoder -/

theorem readBytes_cons (x : Nat) (t : List Nat) :
    readBytes 1 (x :: t) = some ([x], t) := by
  rw [readBytes, if_pos (by simp)]
  simp

theorem readBytes_exact (l t : List Nat) :
    readBytes l.length (l ++ t) = some (l, t) := by
  rw [readBytes, if_pos (by simp)]
  rw [List.take_left, List.drop_left]

/-- Decoding a well-formed frame `[opcode, 128 + L, mask key, payload]`:
the result is the JSON parse of the unmasked payload, a parse failure
being `MalformedPayload`. -/
theorem decodeFrame_wellFormed (op L : Nat) (maskKey payload rest : List Nat)
    (hL : L ≤ 125) (hK : maskKey.length = 4) (hP : payload.length = L) :
    decodeFrame (op :: (128 + L) :: (maskKey ++ (payload ++ rest))) =
      match jsonParseBytes (unmask payload maskKey) with
      | some data => Except.ok data
      | none => Except.error WsError.MalformedPayload := by
  unfold decodeFrame
  simp only [readBytes_cons, List.headD_cons, FIRST_BIT,
    SEVEN_BITS_INTEGER_MARKER, MASK_KEY_BYTES_LENGTH]
  rw [if_pos (by push_cast; omega)]
  rw [show (4 : Nat) = maskKey.length from hK.symm]
  simp only [readBytes_exact]
  rw [show ((((128 + L : Nat) : Int) - ((128 : Nat) : Int)).toNat) = payload.length
    by push_cast; omega]
  simp only [readBytes_exact]

/-! ## Claim theorems -/

/-- C1: for a message whose UTF-8 byte length is at most 125,
`prepareMessage` returns `0x81 :: messageSize :: payload`, a buffer of
exactly `2 + messageSize` bytes with the mask bit of the length byte clear;
beyond 125 bytes it fails with `MessageTooLong`. -/
theorem prepareMessage_spec (message : String) :
    ((utf8Encode message).length ≤ 125 →
      prepareMessage message =
        Except.ok (129 :: (utf8Encode message).length :: utf8Encode message) ∧
      (129 :: (utf8Encode message).length :: utf8Encode message).length =
        2 + (utf8Encode message).length ∧
      (utf8Encode message).length &&& FIRST_BIT = 0) ∧
    (125 < (utf8Encode message).length →
      prepareMessage message = Except.error WsError.MessageTooLong) := by
  constructor
  · intro h
    refine ⟨?_, by simp only [List.length_cons]; omega, ?_⟩
    · unfold prepareMessage
      rw [if_pos (by simpa [SEVEN_BITS_INTEGER_MARKER] using h)]
      rw [show (0x80 ||| OPCODE_TEXT : Nat) = 129 from by decide]
      simp [concatBufs]
    · rw [show (FIRST_BIT : Nat) = 2 ^ 7 from by decide, Nat.and_two_pow,
        Nat.testBit_lt_two_pow (by omega)]
      rfl
  · intro h
    unfold prepareMessage
    rw [if_neg (by simp [SEVEN_BITS_INTEGER_MARKER]; omega)]

set_option maxRecDepth 40000 in
theorem prepareMessage_spec_witness :
    prepareMessage "abc" = Except.ok (129 :: (utf8Encode "abc").length :: utf8Encode "abc") ∧
    prepareMessage (String.mk (List.replicate 125 'a')) =
      Except.ok (129 :: (utf8Encode (String.mk (List.replicate 125 'a'))).length ::
        utf8Encode (String.mk (List.replicate 125 'a'))) ∧
    prepareMessage (String.mk (List.replicate 126 'a')) =
      Except.error WsError.MessageTooLong :=
  ⟨((prepareMessage_spec "abc").1 (by decide)).1,
   ((prepareMessage_spec (String.mk (List.replicate 125 'a'))).1 (by decide)).1,
   (prepareMessage_spec (String.mk (List.replicate 126 'a'))).2 (by decide)⟩

/-- C2: the unmask operation XORs each byte with the mask-key byte at the
index modulo 4, and is an involution: unmasking twice with the same key
gives back the original bytes. -/
theorem unmask_spec (P K : List Nat)
    (hP : ∀ b ∈ P, b < 256) (hK : ∀ b ∈ K, b < 256) (_hlen : K.length = 4) :
    (∀ i, i < P.length →
      (unmask P K).getD i 0 = P.getD i 0 ^^^ K.getD (i % 4) 0) ∧
    unmask (unmask P K) K = P :=
  ⟨fun i hi => unmask_getD_of_bytes P K hP hK i hi, unmask_unmask P K hP hK⟩

theorem unmask_spec_witness :
    unmask (unmask [1, 2, 3, 4, 5] [7, 11, 13, 17]) [7, 11, 13, 17] =
      [1, 2, 3, 4, 5] ∧
    (unmask [1, 2, 3, 4, 5] [7, 11, 13, 17]).getD 4 0 = 5 ^^^ 7 :=
  ⟨(unmask_spec [1, 2, 3, 4, 5] [7, 11, 13, 17]
      (by decide) (by decide) (by decide)).2,
   (unmask_spec [1, 2, 3, 4, 5] [7, 11, 13, 17]
      (by decide) (by decide) (by decide)).1 4 (by decide)⟩

/-- C3: a frame whose second header byte is 254 or 255 (length indicator
126 or 127 after subtracting 128) fails with `MessageTooLong`, whatever
bytes follow — in particular even when no mask-key or payload bytes are
available at all, so the failure precedes any further read. -/
theorem decodeFrame_extendedLength (op b : Nat) (rest : List Nat)
    (hb : b = 254 ∨ b = 255) :
    decodeFrame (op :: b :: rest) = Except.error WsError.MessageTooLong := by
  unfold decodeFrame
  simp only [readBytes_cons, List.headD_cons, FIRST_BIT,
    SEVEN_BITS_INTEGER_MARKER]
  rw [if_neg (by rcases hb with rfl | rfl <;> decide)]

theorem decodeFrame_extendedLength_witness :
    decodeFrame [129, 254] = Except.error WsError.MessageTooLong :=
  decodeFrame_extendedLength 129 254 [] (Or.inl rfl)

set_option maxRecDepth 200000 in
/-- C4: the handshake key deriver is base64 of SHA-1 of the UTF-8 bytes of
the nonce concatenated with the protocol GUID, is total on strings, and
maps the RFC 6455 example nonce to the canonical accept value. -/
theorem createSocketAccept_spec :
    createSocketAccept "dGhlIHNhbXBsZSBub25jZQ==" = "s3pPLMBiTxaQ9kYGzzhZRbK+xOo=" ∧
    ∀ id, createSocketAccept id =
      base64Encode (sha1 (utf8Encode (id ++ WEBSOCKET_MAGIC_STRING))) :=
  ⟨by decide, fun _ => rfl⟩

/-- C5: decoding a well-formed frame `[opcode, 128 + L, 4-byte mask key,
L-byte payload]` ignores the opcode byte, takes the payload length from the
second byte minus 128, unmasks the payload by XOR with the key cycled every
4 bytes, and returns the JSON parse of the resulting UTF-8 text. -/
theorem decodeFrame_steps (op L : Nat) (maskKey payload rest : List Nat)
    (hL : L ≤ 125) (hK : maskKey.length = 4) (hP : payload.length = L) :
    decodeFrame (op :: (128 + L) :: (maskKey ++ (payload ++ rest))) =
      (match jsonParseBytes (unmask payload maskKey) with
       | some data => Except.ok data
       | none => Except.error WsError.MalformedPayload) ∧
    ∀ i, i < payload.length →
      (unmask payload maskKey).getD i 0 =
        (payload.getD i 0 ^^^ maskKey.getD (i % 4) 0) % 256 :=
  ⟨decodeFrame_wellFormed op L maskKey payload rest hL hK hP,
   fun i hi => unmask_getD payload maskKey i hi⟩

set_option maxRecDepth 40000 in
theorem decodeFrame_steps_witness :
    decodeFrame (129 :: (128 + 7) ::
        ([1, 2, 3, 4] ++ ([122, 32, 98, 38, 59, 51, 126] ++ []))) =
      Except.ok (Json.obj [([97], Json.num 1 0)]) := by
  rw [(decodeFrame_steps 129 7 [1, 2, 3, 4] [122, 32, 98, 38, 59, 51, 126] []
    (by decide) (by decide) (by decide)).1]
  rfl

/-- C6: a well-formed frame whose unmasked payload is not UTF-8 text
holding a JSON document fails with exactly `MalformedPayload`; no other
error kind, no recovery, no default value. -/
theorem decodeFrame_malformed (op L : Nat) (maskKey payload rest : List Nat)
    (hL : L ≤ 125) (hK : maskKey.length = 4) (hP : payload.length = L)
    (hbad : jsonParseBytes (unmask payload maskKey) = none) :
    decodeFrame (op :: (128 + L) :: (maskKey ++ (payload ++ rest))) =
      Except.error WsError.MalformedPayload := by
  rw [decodeFrame_wellFormed op L maskKey payload rest hL hK hP, hbad]

theorem decodeFrame_malformed_witness :
    decodeFrame (129 :: (128 + 2) :: ([0, 0, 0, 0] ++ ([104, 105] ++ []))) =
      Except.error WsError.MalformedPayload :=
  decodeFrame_malformed 129 2 [0, 0, 0, 0] [104, 105] []
    (by decide) (by decide) (by decide) (by rfl)

/-- C7: the handshake responder produces exactly the 101 header block:
status line, `Upgrade`, `Connection` and `Sec-WebSocket-Accept` lines, each
CRLF-terminated, followed by an empty CRLF-terminated line; and
`prepareHandshakeHeaders` is this block built over the derived accept
key. -/
theorem handshakeHeaders_block (acceptKey : String) :
    joinAll ((handshakeLines acceptKey).map (fun line => line ++ "\r\n")) =
      "HTTP/1.1 101 Switching Protocols\r\nUpgrade: websocket\r\nConnection: Upgrade\r\nSec-WebSocket-Accept: " ++
        (acceptKey ++ "\r\n\r\n") ∧
    ∀ id, prepareHandshakeHeaders id =
      joinAll ((handshakeLines (createSocketAccept id)).map
        (fun line => line ++ "\r\n")) := by
  constructor
  · apply String.ext
    simp only [joinAll, handshakeLines, List.map_cons, List.map_nil,
      List.foldl_cons, List.foldl_nil, String.data_append]
    simp only [List.append_assoc]
    simp
  · intro id
    rfl

set_option maxRecDepth 40000 in
/-- C8: evaluation of the end-to-end scenario: the masked frame carrying
the JSON text with key `msg` and value `hi` (12 payload bytes, mask key
1,2,3,4) decodes successfully, but the handler then evaluates the source's
`new Date.toISOString()` — a TypeError, since `Date.toISOString` is
undefined — so it aborts without ever producing the reply frame the claim
requires. -/
theorem onSocketReadable_replyBug :
    decodeFrame (129 :: 140 :: ([1, 2, 3, 4] ++
        [122, 32, 110, 119, 102, 32, 57, 38, 105, 107, 33, 121])) =
      Except.ok (Json.obj [([109, 115, 103], Json.str [104, 105])]) ∧
    onSocketReadable (129 :: 140 :: ([1, 2, 3, 4] ++
        [122, 32, 110, 119, 102, 32, 57, 38, 105, 107, 33, 121])) =
      Except.error (HandlerError.jsError JsError.notAConstructor) :=
  ⟨rfl, rfl⟩

/-- C9: a second header byte with the mask bit clear (value below 128)
yields a negative length indicator, which passes the at-most-125 check, so
the decoder never rejects such an unmasked frame with `MessageTooLong` and
proceeds with the negative payload length. -/
theorem decodeFrame_unmaskedBitClear (op b : Nat) (rest : List Nat)
    (hb : b < 128) :
    decodeFrame (op :: b :: rest) ≠ Except.error WsError.MessageTooLong ∧
    (b : Int) - (FIRST_BIT : Int) < 0 := by
  constructor
  · unfold decodeFrame
    simp only [readBytes_cons, List.headD_cons, FIRST_BIT,
      SEVEN_BITS_INTEGER_MARKER, MASK_KEY_BYTES_LENGTH]
    rw [if_pos (by push_cast; omega)]
    split
    · simp
    · split
      · simp
      · split <;> simp
  · simp only [FIRST_BIT]
    omega

theorem decodeFrame_unmaskedBitClear_witness :
    decodeFrame [129, 0] ≠ Except.error WsError.MessageTooLong ∧
    ((0 : Nat) : Int) - (FIRST_BIT : Int) < 0 :=
  decodeFrame_unmaskedBitClear 129 0 [] (by decide)

/-- C10: the unmask loop only ever writes into the fresh copy of the
encoded buffer: after the loop the caller's encoded buffer is unchanged,
and the returned final buffer holds the XORed bytes. -/
theorem unmaskRun_preservesInput (enc K : List Nat) :
    (unmaskRun enc K).1 = enc ∧
    unmask enc K = (unmaskRun enc K).2 ∧
    ∀ i, i < enc.length →
      (unmaskRun enc K).2.getD i 0 = (enc.getD i 0 ^^^ K.getD (i % 4) 0) % 256 :=
  ⟨unmaskRun_fst enc K, rfl, fun i hi => unmask_getD enc K i hi⟩

theorem unmaskRun_preservesInput_witness :
    (unmaskRun [7, 200] [1, 2, 3, 4]).1 = [7, 200] ∧
    (unmaskRun [7, 200] [1, 2, 3, 4]).2.getD 0 0 = (7 ^^^ 1) % 256 :=
  ⟨(unmaskRun_preservesInput [7, 200] [1, 2, 3, 4]).1,
   (unmaskRun_preservesInput [7, 200] [1, 2, 3, 4]).2.2 0 (by decide)⟩
